import Mathlib

/-!
Verification of the retrieval-augmented podcast conversation engine
(`backend/app/services/{pdf_service, qdrant_service, gemini_service}.py`).

The Python services are shallowly embedded as executable Lean definitions:
pure functions become Lean functions, the external collaborators (Gemini
language generation, SentenceTransformer embedding, the Qdrant backend,
the uuid4 supply) become explicit parameters or small state models, and
`try/except` blocks become total functions or `Except`-valued matches.
Python floats only ever flow through the code (no arithmetic a claim
depends on), so vector components are modelled as integers; wall-clock
timestamps are omitted from the message/conversation records.
-/

namespace RagPodcast

/-- Model of Python `sep.join(xs)`: interleaves the separator between the
elements of the list. -/
def joinWith (sep : String) : List String → String
  | [] => ""
  | [w] => w
  | w :: x :: ws => w ++ sep ++ joinWith sep (x :: ws)

/-- Model of `' '.join(xs)`, the join used by `chunk_text`. -/
def joinWords (ws : List String) : String := joinWith " " ws

/-- Helper for `pySplit`: scans the character list, accumulating the
current (reversed) word, emitting a word at each whitespace run. -/
def wordsAux : List Char → List Char → List (List Char)
  | [], cur => if cur = [] then [] else [cur.reverse]
  | ch :: cs, cur =>
    if ch.isWhitespace then
      if cur = [] then wordsAux cs [] else cur.reverse :: wordsAux cs []
    else
      wordsAux cs (ch :: cur)

/-- Model of Python `text.split()` (no argument): split on runs of
whitespace, discarding empty words and leading/trailing whitespace. -/
def pySplit (text : String) : List String :=
  (wordsAux text.data []).map String.mk

/-- Embedding of `PDFService.chunk_text`'s loop
(`pdf_service.py` lines 27-41).  First list argument is
`current_chunk`, second is the remaining `words`; returns the emitted
`chunks`, including the final `if current_chunk:` flush. -/
def chunkAux (chunk_size : Nat) : List String → List String → List String
  | current_chunk, [] =>
    if current_chunk = [] then [] else [joinWords current_chunk]
  | current_chunk, word :: words =>
    if (joinWords (current_chunk ++ [word])).length ≤ chunk_size then
      chunkAux chunk_size (current_chunk ++ [word]) words
    else
      joinWords current_chunk :: chunkAux chunk_size [word] words

/-- Embedding of `PDFService.chunk_text` (`pdf_service.py` lines 25-41):
`words = text.split()`, then the greedy accumulation loop. -/
def chunk_text (text : String) (chunk_size : Nat) : List String :=
  chunkAux chunk_size [] (pySplit text)

lemma joinWith_cons (sep w : String) (ws : List String) (h : ws ≠ []) :
    joinWith sep (w :: ws) = w ++ sep ++ joinWith sep ws := by
  cases ws with
  | nil => exact absurd rfl h
  | cons x xs => rfl

lemma joinWith_append (sep : String) (l₁ l₂ : List String)
    (h₁ : l₁ ≠ []) (h₂ : l₂ ≠ []) :
    joinWith sep (l₁ ++ l₂) = joinWith sep l₁ ++ sep ++ joinWith sep l₂ := by
  induction l₁ with
  | nil => exact absurd rfl h₁
  | cons a as ih =>
    cases as with
    | nil =>
      simp only [List.singleton_append, List.nil_append]
      rw [joinWith_cons sep a l₂ h₂]
      rfl
    | cons b bs =>
      have hne : (b :: bs) ++ l₂ ≠ [] := by simp
      rw [List.cons_append, joinWith_cons sep a _ hne,
        ih (by simp), joinWith_cons sep a (b :: bs) (by simp)]
      simp [String.append_assoc]

lemma chunkAux_ne_nil (chunk_size : Nat) :
    ∀ (words current : List String), current ≠ [] →
      chunkAux chunk_size current words ≠ [] := by
  intro words
  induction words with
  | nil =>
    intro current h
    simp only [chunkAux, if_neg h]
    simp
  | cons w ws ih =>
    intro current h
    simp only [chunkAux]
    split
    · exact ih (current ++ [w]) (by simp)
    · simp

lemma chunkAux_join (chunk_size : Nat) :
    ∀ (words current : List String), current ≠ [] →
      joinWords (chunkAux chunk_size current words) =
        joinWords (current ++ words) := by
  intro words
  induction words with
  | nil =>
    intro current h
    simp only [chunkAux, if_neg h, List.append_nil]
    rfl
  | cons w ws ih =>
    intro current h
    simp only [chunkAux]
    split
    · rw [ih (current ++ [w]) (by simp), List.append_assoc, List.singleton_append]
    · have hr : chunkAux chunk_size [w] ws ≠ [] :=
        chunkAux_ne_nil chunk_size ws [w] (by simp)
      have hih := ih [w] (by simp)
      simp only [joinWords, List.singleton_append] at hih ⊢
      rw [joinWith_cons " " _ _ hr, hih,
        joinWith_append " " current (w :: ws) h (by simp)]

/-- Invariant: every chunk emitted by `chunkAux` either respects the size
bound or is (the join of) a single word drawn from the allowed word pool
`W`. -/
lemma chunkAux_mem_bound (chunk_size : Nat) (W : List String) :
    ∀ (words current : List String), (∀ w ∈ words, w ∈ W) →
      (current = [] ∨ (joinWords current).length ≤ chunk_size ∨
        ∃ w ∈ W, current = [w]) →
      ∀ c ∈ chunkAux chunk_size current words, c.length ≤ chunk_size ∨ c ∈ W := by
  intro words
  induction words with
  | nil =>
    intro current _ hinv c hc
    by_cases hcur : current = []
    · simp [chunkAux, hcur] at hc
    · simp only [chunkAux, if_neg hcur, List.mem_singleton] at hc
      subst hc
      rcases hinv with h | h | ⟨w, hw, h⟩
      · exact absurd h hcur
      · exact Or.inl h
      · subst h
        right
        simpa [joinWords, joinWith] using hw
  | cons w ws ih =>
    intro current hws hinv c hc
    simp only [chunkAux] at hc
    split at hc
    · rename_i hcond
      exact ih (current ++ [w]) (fun x hx => hws x (List.mem_cons_of_mem _ hx))
        (Or.inr (Or.inl hcond)) c hc
    · rcases List.mem_cons.mp hc with hc | hc
      · subst hc
        rcases hinv with h | h | ⟨w', hw', h⟩
        · exact Or.inl (by simp [h, joinWords, joinWith])
        · exact Or.inl h
        · subst h
          right
          simpa [joinWords, joinWith] using hw'
      · exact ih [w] (fun x hx => hws x (List.mem_cons_of_mem _ hx))
          (Or.inr (Or.inr ⟨w, hws w (List.mem_cons_self w ws), rfl⟩)) c hc

/-- C1 counterexample: with input `"ab"` and `max_chars = 1` the first
word is longer than the limit, so the loop seals the still-empty
`current_chunk`, emitting an empty chunk; rejoining with single spaces
yields `" ab"`, which is not the whitespace-normalized input `"ab"`. -/
theorem chunk_text_join_counterexample :
    1 ≤ 1 ∧ chunk_text "ab" 1 = ["", "ab"] ∧
      joinWords (chunk_text "ab" 1) ≠ joinWords (pySplit "ab") := by
  refine ⟨le_refl 1, by decide, by decide⟩

/-- C1 (amended): if the first word of the input is within the size limit
(or the input has no words), joining the emitted chunks with single
spaces reproduces exactly the whitespace-normalized input text. -/
theorem chunk_text_join (text : String) (max_chars : Nat) (hm : 1 ≤ max_chars)
    (hfirst : ∀ w, (pySplit text).head? = some w → w.length ≤ max_chars) :
    joinWords (chunk_text text max_chars) = joinWords (pySplit text) := by
  unfold chunk_text
  rcases h : pySplit text with _ | ⟨w, ws⟩
  · rfl
  · have hw : w.length ≤ max_chars := hfirst w (by rw [h]; rfl)
    have hcond : (joinWords [w]).length ≤ max_chars := by
      simpa [joinWords, joinWith] using hw
    simp only [chunkAux, List.nil_append]
    rw [if_pos hcond]
    simpa using chunkAux_join max_chars ws [w] (by simp)

/-- C1 witness: a concrete run of the amended statement. -/
theorem chunk_text_join_witness :
    joinWords (chunk_text "a b ab" 2) = joinWords (pySplit "a b ab") := by
  refine chunk_text_join "a b ab" 2 (by decide) ?_
  intro w hw
  have hsplit : pySplit "a b ab" = ["a", "b", "ab"] := by decide
  rw [hsplit] at hw
  simp only [List.head?] at hw
  cases hw
  decide

/-- C9: every chunk emitted by `chunk_text` has length at most
`max_chars`, except possibly chunks that are a single over-length word of
the input (emitted alone, never split mid-word). -/
theorem chunk_text_length_bound (text : String) (max_chars : Nat)
    (hm : 1 ≤ max_chars) :
    ∀ c ∈ chunk_text text max_chars,
      c.length ≤ max_chars ∨ (c ∈ pySplit text ∧ max_chars < c.length) := by
  intro c hc
  have h := chunkAux_mem_bound max_chars (pySplit text) (pySplit text) []
    (fun w hw => hw) (Or.inl rfl) c hc
  rcases Nat.lt_or_ge max_chars c.length with hlt | hle
  · rcases h with h | h
    · exact Or.inl h
    · exact Or.inr ⟨h, hlt⟩
  · exact Or.inl hle

/-- C9 witness: in `chunk_text "abc d" 2` the over-length word `"abc"` is
emitted alone as a chunk. -/
theorem chunk_text_length_bound_witness :
    "abc" ∈ chunk_text "abc d" 2 ∧
      ("abc".length ≤ 2 ∨ ("abc" ∈ pySplit "abc d" ∧ 2 < "abc".length)) :=
  ⟨by decide, chunk_text_length_bound "abc d" 2 (by decide) "abc" (by decide)⟩

/-! ## Vector index (`qdrant_service.py`)

The `QdrantService` methods wrap calls to the external `qdrant_client`
library in `try/except` blocks.  The backend itself is not part of the
repository; its behaviour (collections typed by a vector dimension,
upsert keyed by point id with replace-on-collision, search and upsert
raising on a missing collection or a dimension mismatch) is modelled
from the spec's Vector Index contract.  The nondeterministic
`uuid.uuid4()` supply is modelled as a function `ids : Nat → String`
consumed at a counter that the service threads through calls. -/

/-- Metadata dictionary of a `PDFChunk` (`models/pdf_processing.py`):
the service reads `pdf_id`, `source` and `chunk_index` with
`metadata.get(key, default)`, so each is optional here. -/
structure ChunkMetadata where
  pdf_id : Option String
  source : Option String
  chunk_index : Option Nat
deriving DecidableEq, Repr

/-- Embedding of the `PDFChunk` pydantic model (`models/pdf_processing.py`).
`embedding: Optional[List[float]]` is modelled with integer components. -/
structure PDFChunk where
  id : String
  content : String
  page_number : Nat
  embedding : Option (List Int)
  metadata : ChunkMetadata
deriving DecidableEq, Repr

/-- Payload stored with each point by `upsert_vectors`
(`qdrant_service.py` lines 48-54). -/
structure PointPayload where
  pdf_id : String
  content : String
  page_number : Nat
  source : String
  chunk_index : Nat
deriving DecidableEq, Repr

/-- Embedding of `qdrant_client`'s `PointStruct`. -/
structure PointStruct where
  id : String
  vector : List Int
  payload : PointPayload
deriving DecidableEq, Repr

/-- Embedding of the `VectorSearchResult` pydantic model
(`models/qdrant_client.py`); the float score is modelled as an integer. -/
structure VectorSearchResult where
  id : String
  score : Int
  payload : PointPayload
  vector : Option (List Int)
deriving DecidableEq, Repr

/-- Modelled from the spec: one named collection of the external Qdrant
backend — a vector dimension, a distance metric and the stored points. -/
structure Collection where
  dim : Nat
  metric : String
  points : List PointStruct
deriving DecidableEq, Repr

/-- Modelled from the spec: the whole state of the external Qdrant
backend, a finite association of collection names to collections. -/
abbrev QdrantState := List (String × Collection)

/-- Modelled from the spec: error conditions the external Qdrant client
raises as Python exceptions. -/
inductive QdrantError where
  | dimensionMismatch
  | collectionNotFound
  | validationError
deriving DecidableEq, Repr

/-- Look up a collection by name (first binding wins). -/
def lookupCollection : QdrantState → String → Option Collection
  | [], _ => none
  | p :: rest, name => if p.1 == name then some p.2 else lookupCollection rest name

/-- Replace the collection bound to `name`. -/
def updateCollection : QdrantState → String → Collection → QdrantState
  | [], _, _ => []
  | p :: rest, name, col =>
    (if p.1 == name then (p.1, col) else p) :: updateCollection rest name col

/-- Modelled from the spec: Qdrant upsert of a single point — a point
with an already-present id replaces the stored point, otherwise it is
appended. -/
def clientUpsertPoint (points : List PointStruct) (p : PointStruct) :
    List PointStruct :=
  if points.any (fun q => q.id == p.id) then
    points.map (fun q => if q.id == p.id then p else q)
  else
    points ++ [p]

/-- Modelled from the spec: the external client's `upsert` call — raises
(as an `Except.error`) on a missing collection or when any vector's
length differs from the collection's dimension, otherwise upserts every
point by id. -/
def clientUpsert (st : QdrantState) (name : String) (ps : List PointStruct) :
    Except QdrantError QdrantState :=
  match lookupCollection st name with
  | none => .error .collectionNotFound
  | some col =>
    if ps.all (fun p => p.vector.length == col.dim) then
      .ok (updateCollection st name
        { col with points := ps.foldl clientUpsertPoint col.points })
    else
      .error .dimensionMismatch

/-- Insert a search result into a list sorted by descending score,
after any result of equal score (ties keep insertion order). -/
def insertRanked (r : VectorSearchResult) :
    List VectorSearchResult → List VectorSearchResult
  | [] => [r]
  | x :: xs => if x.score < r.score then r :: x :: xs else x :: insertRanked r xs

/-- Sort search results by descending score (stable insertion sort). -/
def rankDesc : List VectorSearchResult → List VectorSearchResult
  | [] => []
  | x :: xs => insertRanked x (rankDesc xs)

/-- Integer dot product, the modelled similarity score. -/
def dotProduct : List Int → List Int → Int
  | [], _ => 0
  | _, [] => 0
  | a :: as, b :: bs => a * b + dotProduct as bs

/-- Modelled from the spec: the external client's `search` call — raises
on a missing collection, otherwise returns at most `limit` results
ranked by descending similarity score. -/
def clientSearch (st : QdrantState) (name : String) (query_vector : List Int)
    (limit : Nat) : Except QdrantError (List VectorSearchResult) :=
  match lookupCollection st name with
  | none => .error .collectionNotFound
  | some col =>
    .ok ((rankDesc (col.points.map (fun p =>
      { id := p.id, score := dotProduct query_vector p.vector,
        payload := p.payload, vector := some p.vector }))).take limit)

/-- The `PointStruct` built for one chunk by `upsert_vectors`
(`qdrant_service.py` lines 45-55): a fresh `str(uuid.uuid4())` id —
modelled as `ids ctr` — and a payload read off the chunk with
`metadata.get` defaults.  A chunk without an embedding makes the
`PointStruct` constructor raise a validation error (handled in
`buildPoints`). -/
def mkPoint (ids : Nat → String) (ctr : Nat) (chunk : PDFChunk)
    (v : List Int) : PointStruct :=
  { id := ids ctr, vector := v,
    payload :=
      { pdf_id := chunk.metadata.pdf_id.getD "",
        content := chunk.content,
        page_number := chunk.page_number,
        source := chunk.metadata.source.getD "",
        chunk_index := chunk.metadata.chunk_index.getD 0 } }

/-- The loop of `upsert_vectors` building one `PointStruct` per chunk
(`qdrant_service.py` lines 43-56), threading the uuid counter. -/
def buildPoints (ids : Nat → String) : Nat → List PDFChunk →
    Except QdrantError (List PointStruct)
  | _, [] => .ok []
  | ctr, chunk :: rest =>
    match chunk.embedding with
    | none => .error .validationError
    | some v =>
      match buildPoints ids (ctr + 1) rest with
      | .error e => .error e
      | .ok ps => .ok (mkPoint ids ctr chunk v :: ps)

/-- Embedding of `QdrantService.upsert_vectors`
(`qdrant_service.py` lines 40-65): builds one point per chunk and calls
the client's upsert; any exception is caught and turned into `false`,
leaving the backend state unchanged.  Returns (result, state, counter). -/
def upsert_vectors (ids : Nat → String) (st : QdrantState) (ctr : Nat)
    (collection_name : String) (chunks : List PDFChunk) :
    Bool × QdrantState × Nat :=
  match buildPoints ids ctr chunks with
  | .error _ => (false, st, ctr + chunks.length)
  | .ok points =>
    match clientUpsert st collection_name points with
    | .ok st2 => (true, st2, ctr + chunks.length)
    | .error _ => (false, st, ctr + chunks.length)

/-- Embedding of `QdrantService.search_similar`
(`qdrant_service.py` lines 67-91): any exception from the client is
caught and turned into the empty result list. -/
def search_similar (st : QdrantState) (collection_name : String)
    (query_vector : List Int) (limit : Nat) : List VectorSearchResult :=
  match clientSearch st collection_name query_vector limit with
  | .ok results => results
  | .error _ => []

/-- Number of points stored under `name`, 0 if the collection is absent. -/
def pointsCount (st : QdrantState) (name : String) : Nat :=
  match lookupCollection st name with
  | some col => col.points.length
  | none => 0

/-- C7: searching a collection name that does not exist returns the empty
sequence; the backend's exception is caught, never re-raised (the
embedding of `search_similar` is a total function into a plain list). -/
theorem search_missing_collection_empty (st : QdrantState) (name : String)
    (query_vector : List Int) (limit : Nat)
    (h : lookupCollection st name = none) :
    clientSearch st name query_vector limit = .error .collectionNotFound ∧
      search_similar st name query_vector limit = [] := by
  have hc : clientSearch st name query_vector limit = .error .collectionNotFound := by
    unfold clientSearch
    rw [h]
  exact ⟨hc, by unfold search_similar; rw [hc]⟩

/-- C7 witness: searching the empty backend state. -/
theorem search_missing_collection_empty_witness :
    clientSearch [] "docs" [1, 2] 5 = .error .collectionNotFound ∧
      search_similar [] "docs" [1, 2] 5 = [] :=
  search_missing_collection_empty [] "docs" [1, 2] 5 (by decide)

/-- Decidable equality for `Except`, used by closed evaluations. -/
instance {ε α : Type} [DecidableEq ε] [DecidableEq α] :
    DecidableEq (Except ε α) := fun x y =>
  match x, y with
  | .ok a, .ok b =>
    if h : a = b then .isTrue (congrArg Except.ok h)
    else .isFalse (fun hc => h (Except.ok.inj hc))
  | .error e, .error f =>
    if h : e = f then .isTrue (congrArg Except.error h)
    else .isFalse (fun hc => h (Except.error.inj hc))
  | .ok _, .error _ => .isFalse (fun hc => Except.noConfusion hc)
  | .error _, .ok _ => .isFalse (fun hc => Except.noConfusion hc)

/-- Concrete backend state for the C2 scenario: a collection of
dimension 4 with no points. -/
def stDim4 : QdrantState := [("docs", { dim := 4, metric := "cosine", points := [] })]

/-- Concrete chunk with a 3-length embedding for the C2 scenario. -/
def chunkDim3 : PDFChunk :=
  { id := "1", content := "sample", page_number := 1,
    embedding := some [1, 2, 3],
    metadata := { pdf_id := none, source := none, chunk_index := some 0 } }

/-- Concrete uuid4 supply used by closed evaluations. -/
def uuidSupply (n : Nat) : String := "uuid-" ++ toString n

/-- Concrete injective uuid4 supply (unary-coded) used where a closed
evaluation also needs a proof of injectivity. -/
def unaryIds (n : Nat) : String := String.mk (List.replicate n 'u')

/-- C2 counterexample: on a collection of dimension 4 and a chunk whose
embedding has length 3, the backend does raise a dimension mismatch, but
`upsert_vectors` swallows it and returns the boolean sentinel `false`
(state unchanged) — no `DimensionMismatch` error reaches the caller. -/
theorem upsert_dimension_mismatch_counterexample :
    (∃ pts, buildPoints uuidSupply 0 [chunkDim3] = .ok pts ∧
      clientUpsert stDim4 "docs" pts = .error .dimensionMismatch) ∧
      upsert_vectors uuidSupply stDim4 0 "docs" [chunkDim3] =
        (false, stDim4, 1) := by
  refine ⟨⟨[mkPoint uuidSupply 0 chunkDim3 [1, 2, 3]], by decide, by decide⟩, by decide⟩

lemma buildPoints_ok_vector_mem (ids : Nat → String) :
    ∀ (chunks : List PDFChunk) (ctr : Nat) (pts : List PointStruct),
      buildPoints ids ctr chunks = .ok pts →
      ∀ ch ∈ chunks, ∀ v, ch.embedding = some v → ∃ p ∈ pts, p.vector = v := by
  intro chunks
  induction chunks with
  | nil =>
    intro ctr pts _ ch hch
    exact absurd hch (List.not_mem_nil ch)
  | cons ch₀ rest ih =>
    intro ctr pts hbp ch hch v hv
    rcases hemb : ch₀.embedding with _ | v₀
    · simp [buildPoints, hemb] at hbp
    · rcases hrest : buildPoints ids (ctr + 1) rest with e | ps
      · simp [buildPoints, hemb, hrest] at hbp
      · simp only [buildPoints, hemb, hrest, Except.ok.injEq] at hbp
        rcases List.mem_cons.mp hch with hch | hch
        · subst hch
          rw [hemb] at hv
          injection hv with hv
          subst hv
          exact ⟨mkPoint ids ctr ch v₀,
            by rw [← hbp]; exact List.mem_cons_self _ _, rfl⟩
        · obtain ⟨p, hp, hpv⟩ := ih (ctr + 1) ps hrest ch hch v hv
          exact ⟨p, by rw [← hbp]; exact List.mem_cons_of_mem _ hp, hpv⟩

/-- C2 (amended): when any chunk's embedding length differs from the
collection's dimension, `upsert_vectors` returns the failure boolean
`false` and leaves the backend state unchanged; the backend's
`DimensionMismatch` is caught inside the service and is not propagated
to the caller. -/
theorem upsert_dimension_mismatch_returns_false (ids : Nat → String)
    (st : QdrantState) (ctr : Nat) (name : String) (chunks : List PDFChunk)
    (col : Collection) (hcol : lookupCollection st name = some col)
    (hbad : ∃ ch ∈ chunks, ∃ v, ch.embedding = some v ∧ v.length ≠ col.dim) :
    upsert_vectors ids st ctr name chunks = (false, st, ctr + chunks.length) := by
  rcases hbp : buildPoints ids ctr chunks with e | pts
  · simp [upsert_vectors, hbp]
  · obtain ⟨ch, hch, v, hv, hlen⟩ := hbad
    obtain ⟨p, hp, hpv⟩ := buildPoints_ok_vector_mem ids chunks ctr pts hbp ch hch v hv
    have hall : pts.all (fun p => p.vector.length == col.dim) = false := by
      rcases h : pts.all (fun p => p.vector.length == col.dim) with _ | _
      · rfl
      · have := List.all_eq_true.mp h p hp
        rw [hpv] at this
        simp only [beq_iff_eq] at this
        exact absurd this hlen
    have hcu : clientUpsert st name pts = .error .dimensionMismatch := by
      simp [clientUpsert, hcol, hall]
    simp [upsert_vectors, hbp, hcu]

/-- C2 amended-claim witness: the scenario input run through the amended
theorem. -/
theorem upsert_dimension_mismatch_returns_false_witness :
    upsert_vectors uuidSupply stDim4 0 "docs" [chunkDim3] =
      (false, stDim4, 0 + [chunkDim3].length) :=
  upsert_dimension_mismatch_returns_false uuidSupply stDim4 0 "docs" [chunkDim3]
    { dim := 4, metric := "cosine", points := [] } (by decide)
    ⟨chunkDim3, by decide, [1, 2, 3], by decide, by decide⟩

/-- Concrete backend state for the C6 scenario: a collection of
dimension 2 with no points. -/
def stIdem : QdrantState := [("docs", { dim := 2, metric := "cosine", points := [] })]

/-- Concrete chunk for the C6 scenario. -/
def chunkIdem : PDFChunk :=
  { id := "c1", content := "hello", page_number := 1,
    embedding := some [1, 2],
    metadata := { pdf_id := some "p", source := some "s", chunk_index := some 0 } }

/-- C6 counterexample: upserting the same single chunk twice does not
leave the index in the state one call produces — each call mints a fresh
point id (`str(uuid.uuid4())` per chunk per call), so the second call
adds a duplicate point: 1 point after one call, 2 after two. -/
theorem upsert_idempotence_counterexample :
    (upsert_vectors uuidSupply stIdem 0 "docs" [chunkIdem]).1 = true ∧
      ((upsert_vectors uuidSupply
          (upsert_vectors uuidSupply stIdem 0 "docs" [chunkIdem]).2.1
          (upsert_vectors uuidSupply stIdem 0 "docs" [chunkIdem]).2.2
          "docs" [chunkIdem]).1 = true) ∧
      (upsert_vectors uuidSupply
          (upsert_vectors uuidSupply stIdem 0 "docs" [chunkIdem]).2.1
          (upsert_vectors uuidSupply stIdem 0 "docs" [chunkIdem]).2.2
          "docs" [chunkIdem]).2.1 ≠
        (upsert_vectors uuidSupply stIdem 0 "docs" [chunkIdem]).2.1 ∧
      pointsCount (upsert_vectors uuidSupply stIdem 0 "docs" [chunkIdem]).2.1
          "docs" = 1 ∧
      pointsCount (upsert_vectors uuidSupply
          (upsert_vectors uuidSupply stIdem 0 "docs" [chunkIdem]).2.1
          (upsert_vectors uuidSupply stIdem 0 "docs" [chunkIdem]).2.2
          "docs" [chunkIdem]).2.1 "docs" = 2 := by
  decide

/-- Specification of a successful `buildPoints` run: one point per
chunk, vectors copied from the embeddings, ids drawn injectively from
the uuid supply at consecutive counters (hence pairwise distinct). -/
lemma buildPoints_ok_spec (ids : Nat → String) (hinj : Function.Injective ids)
    (d : Nat) :
    ∀ (chunks : List PDFChunk) (ctr : Nat),
      (∀ ch ∈ chunks, ∃ v, ch.embedding = some v ∧ v.length = d) →
      ∃ pts, buildPoints ids ctr chunks = .ok pts ∧
        pts.length = chunks.length ∧
        (∀ p ∈ pts, p.vector.length = d) ∧
        (∀ p ∈ pts, ∃ k, ctr ≤ k ∧ k < ctr + chunks.length ∧ p.id = ids k) ∧
        List.Pairwise (fun p q => p.id ≠ q.id) pts := by
  intro chunks
  induction chunks with
  | nil =>
    intro ctr _
    exact ⟨[], rfl, rfl, by simp, by simp, List.Pairwise.nil⟩
  | cons ch rest ih =>
    intro ctr hemb
    obtain ⟨v, hv, hvlen⟩ := hemb ch (List.mem_cons_self _ _)
    obtain ⟨pts, hbp, hlen, hdim, hids, hpw⟩ :=
      ih (ctr + 1) (fun c hc => hemb c (List.mem_cons_of_mem _ hc))
    refine ⟨mkPoint ids ctr ch v :: pts, ?_, ?_, ?_, ?_, ?_⟩
    · simp [buildPoints, hv, hbp]
    · simp [hlen]
    · intro p hp
      rcases List.mem_cons.mp hp with h | h
      · subst h; exact hvlen
      · exact hdim p h
    · intro p hp
      rcases List.mem_cons.mp hp with h | h
      · subst h
        exact ⟨ctr, le_refl _, by simp, rfl⟩
      · obtain ⟨k, hk1, hk2, hk3⟩ := hids p h
        refine ⟨k, by omega, ?_, hk3⟩
        simp only [List.length_cons]
        omega
    · refine List.Pairwise.cons ?_ hpw
      intro p hp
      obtain ⟨k, hk1, hk2, hk3⟩ := hids p hp
      show (mkPoint ids ctr ch v).id ≠ p.id
      rw [hk3]
      intro hco
      have := hinj hco
      omega

/-- When every new point id is fresh for the accumulator and the new ids
are pairwise distinct, Qdrant's upsert-by-id fold is a plain append. -/
lemma foldl_upsert_fresh :
    ∀ (pts base : List PointStruct),
      (∀ p ∈ pts, ∀ q ∈ base, q.id ≠ p.id) →
      List.Pairwise (fun p q => p.id ≠ q.id) pts →
      pts.foldl clientUpsertPoint base = base ++ pts := by
  intro pts
  induction pts with
  | nil => intro base _ _; simp
  | cons p ps ih =>
    intro base hfresh hpw
    have hany : base.any (fun q => q.id == p.id) = false := by
      rw [List.any_eq_false]
      intro q hq
      simp only [beq_iff_eq]
      exact hfresh p (List.mem_cons_self _ _) q hq
    have hstep : clientUpsertPoint base p = base ++ [p] := by
      simp [clientUpsertPoint, hany]
    rw [List.foldl_cons, hstep,
      ih (base ++ [p]) ?_ (List.Pairwise.of_cons hpw)]
    · simp
    · intro r hr q hq
      rcases List.mem_append.mp hq with hq | hq
      · exact hfresh r (List.mem_cons_of_mem _ hr) q hq
      · rw [List.mem_singleton.mp hq]
        exact List.rel_of_pairwise_cons hpw hr

/-- Updating a present collection makes lookup return the new value. -/
lemma lookupCollection_update (st : QdrantState) (name : String)
    (col col' : Collection) (h : lookupCollection st name = some col) :
    lookupCollection (updateCollection st name col') name = some col' := by
  induction st with
  | nil => simp [lookupCollection] at h
  | cons pr rest ih =>
    rcases hb : (pr.1 == name) with _ | _
    · simp only [lookupCollection, hb] at h
      simp only [Bool.false_eq_true, if_false] at h
      simp [updateCollection, lookupCollection, hb]
      exact ih h
    · simp [updateCollection, lookupCollection, hb]

/-- A successful `upsert_vectors` call appends the freshly built points
to the collection. -/
lemma upsert_vectors_ok (ids : Nat → String) (st : QdrantState) (ctr : Nat)
    (name : String) (chunks : List PDFChunk) (col : Collection)
    (pts : List PointStruct)
    (hcol : lookupCollection st name = some col)
    (hbp : buildPoints ids ctr chunks = .ok pts)
    (hdim : ∀ p ∈ pts, p.vector.length = col.dim)
    (hfresh : ∀ p ∈ pts, ∀ q ∈ col.points, q.id ≠ p.id)
    (hpw : List.Pairwise (fun p q => p.id ≠ q.id) pts) :
    upsert_vectors ids st ctr name chunks =
      (true, updateCollection st name { col with points := col.points ++ pts },
        ctr + chunks.length) := by
  have hall : pts.all (fun p => p.vector.length == col.dim) = true := by
    rw [List.all_eq_true]
    intro p hp
    simp [beq_iff_eq, hdim p hp]
  have hfold : pts.foldl clientUpsertPoint col.points = col.points ++ pts :=
    foldl_upsert_fresh pts col.points hfresh hpw
  simp [upsert_vectors, hbp, clientUpsert, hcol, hall, hfold]

/-- C6 (amended): `upsert_vectors` is not idempotent across calls — each
call draws fresh point ids from the uuid supply, so calling it twice
with the same chunk list appends the points twice: after one successful
call the collection holds `base + n` points, after the second
`base + 2 * n`, and the index is not left in the single-call state. -/
theorem upsert_twice_duplicates (ids : Nat → String) (st : QdrantState)
    (ctr : Nat) (name : String) (chunks : List PDFChunk) (col : Collection)
    (hinj : Function.Injective ids)
    (hcol : lookupCollection st name = some col)
    (hdim : ∀ ch ∈ chunks, ∃ v, ch.embedding = some v ∧ v.length = col.dim)
    (hfresh : ∀ q ∈ col.points, ∀ k, q.id ≠ ids k) :
    ∃ st₁ st₂,
      upsert_vectors ids st ctr name chunks = (true, st₁, ctr + chunks.length) ∧
      upsert_vectors ids st₁ (ctr + chunks.length) name chunks =
        (true, st₂, ctr + chunks.length + chunks.length) ∧
      pointsCount st₁ name = col.points.length + chunks.length ∧
      pointsCount st₂ name = col.points.length + 2 * chunks.length := by
  obtain ⟨pts₁, hbp₁, hlen₁, hdim₁, hids₁, hpw₁⟩ :=
    buildPoints_ok_spec ids hinj col.dim chunks ctr hdim
  have hfresh₁ : ∀ p ∈ pts₁, ∀ q ∈ col.points, q.id ≠ p.id := by
    intro p hp q hq
    obtain ⟨k, _, _, hid⟩ := hids₁ p hp
    rw [hid]
    exact hfresh q hq k
  have hcall₁ := upsert_vectors_ok ids st ctr name chunks col pts₁
    hcol hbp₁ hdim₁ hfresh₁ hpw₁
  set col₁ : Collection := { col with points := col.points ++ pts₁ } with hcol₁def
  set st₁ : QdrantState := updateCollection st name col₁ with hst₁def
  have hcol₁ : lookupCollection st₁ name = some col₁ :=
    lookupCollection_update st name col col₁ hcol
  obtain ⟨pts₂, hbp₂, hlen₂, hdim₂, hids₂, hpw₂⟩ :=
    buildPoints_ok_spec ids hinj col.dim chunks (ctr + chunks.length) hdim
  have hfresh₂ : ∀ p ∈ pts₂, ∀ q ∈ col₁.points, q.id ≠ p.id := by
    intro p hp q hq
    obtain ⟨k₂, hk₂a, hk₂b, hid₂⟩ := hids₂ p hp
    rcases List.mem_append.mp hq with hq | hq
    · rw [hid₂]
      exact hfresh q hq k₂
    · obtain ⟨k₁, hk₁a, hk₁b, hid₁⟩ := hids₁ q hq
      rw [hid₁, hid₂]
      intro hco
      have := hinj hco
      omega
  have hcall₂ := upsert_vectors_ok ids st₁ (ctr + chunks.length) name chunks
    col₁ pts₂ hcol₁ hbp₂ hdim₂ hfresh₂ hpw₂
  refine ⟨st₁, updateCollection st₁ name { col₁ with points := col₁.points ++ pts₂ },
    hcall₁, hcall₂, ?_, ?_⟩
  · unfold pointsCount
    rw [hcol₁]
    simp [hcol₁def, hlen₁]
  · unfold pointsCount
    rw [lookupCollection_update st₁ name col₁ _ hcol₁]
    simp [hcol₁def, hlen₁, hlen₂]
    omega

/-- C6 amended-claim witness: the concrete two-call scenario run through
the amended theorem. -/
theorem upsert_twice_duplicates_witness :
    ∃ st₁ st₂,
      upsert_vectors unaryIds stIdem 0 "docs" [chunkIdem] =
        (true, st₁, 0 + [chunkIdem].length) ∧
      upsert_vectors unaryIds st₁ (0 + [chunkIdem].length) "docs" [chunkIdem] =
        (true, st₂, 0 + [chunkIdem].length + [chunkIdem].length) ∧
      pointsCount st₁ "docs" = ([] : List PointStruct).length + [chunkIdem].length ∧
      pointsCount st₂ "docs" =
        ([] : List PointStruct).length + 2 * [chunkIdem].length := by
  refine upsert_twice_duplicates unaryIds stIdem 0 "docs" [chunkIdem]
    { dim := 2, metric := "cosine", points := [] } ?_ (by decide) ?_ ?_
  · intro a b hab
    have h2 : List.replicate a 'u' = List.replicate b 'u' :=
      congrArg String.data hab
    have h3 := congrArg List.length h2
    simpa using h3
  · intro ch hch
    rw [List.mem_singleton.mp hch]
    exact ⟨[1, 2], rfl, rfl⟩
  · intro q hq
    simp at hq

/-! ## Dialogue synthesizer (`gemini_service.py`)

`GeminiService` drives a fixed turn-taking loop over external
capabilities.  The Gemini call (`self.model.generate_content(prompt).text`)
is modelled as a parameter `genCall : String → Except String String`
(error = `str(e)` of the raised exception); the SentenceTransformer
query embedding as `embed : String → Except String (List Int)`; the
uuid4 supply as `ids : Nat → String`.  `datetime.now()` timestamps are
omitted from messages and conversations. -/

/-- Embedding of the `PodcastAgent` pydantic model
(`models/gemini_client.py`). -/
structure PodcastAgent where
  id : String
  name : String
  role : String
  personality : String
  voice_id : String
deriving DecidableEq, Repr

/-- Embedding of the `PodcastMessage` pydantic model
(`models/gemini_client.py`); the `datetime` timestamp is omitted. -/
structure PodcastMessage where
  agent_id : String
  content : String
  is_user_message : Bool
deriving DecidableEq, Repr

/-- Model of the language-generation capability: one Gemini call per
prompt, which may raise (error carries `str(e)`). -/
abbrev GenCall := String → Except String String

/-- Model of the query-embedding capability
(`SentenceTransformer(...).encode([query])[0].tolist()`), which may
raise on model load or encode. -/
abbrev EmbedCall := String → Except String (List Int)

/-- Default collection name, `settings.QDRANT_COLLECTION` (`config.py`). -/
def QDRANT_COLLECTION : String := "podcast_chunks"

/-- Drop leading whitespace from a character list. -/
def dropWhiteLeft : List Char → List Char
  | [] => []
  | c :: cs => if c.isWhitespace then dropWhiteLeft cs else c :: cs

/-- Model of Python `s.strip()`: remove whitespace at both ends. -/
def pyStrip (s : String) : String :=
  ⟨(dropWhiteLeft ((dropWhiteLeft s.data).reverse)).reverse⟩

/-- Python truthiness of an optional string: `None` and `""` are falsy. -/
def optTruthy : Option String → Bool
  | none => false
  | some s => s != ""

/-- Model of Python `q or default` for an optional string `q`. -/
def pyOr (q : Option String) (default : String) : String :=
  match q with
  | some s => if s == "" then default else s
  | none => default

/-- Model of Python `l[-n:]`: the last `n` elements. -/
def takeLast {α : Type} (n : Nat) (l : List α) : List α :=
  l.drop (l.length - n)

/-- The agent-specific prompt of `generate_agent_response`
(`gemini_service.py` lines 31-39), an f-string over the agent, the
retrieval context and the history window. -/
def mkPrompt (agent : PodcastAgent) (context : String)
    (history_text : String) : String :=
  "\n            You are " ++ agent.name ++ ", a " ++ agent.role ++
  " with the following personality: " ++ agent.personality ++
  ".\n            Current conversation context: " ++ context ++
  "\n            Conversation history:\n            " ++ history_text ++
  "\n\n            Please generate a response that is appropriate for your role and personality.\n            Keep responses concise but informative, typically 1-3 sentences.\n            "

/-- The apology text substituted for a failed generation call
(`gemini_service.py` line 47), to be suffixed with `str(e)`. -/
def apologyText : String :=
  "Sorry, I encountered an error generating a response. "

/-- Embedding of `GeminiService.generate_agent_response`
(`gemini_service.py` lines 22-47): builds the prompt from the last 5
history messages, calls the generation capability, strips the response;
any exception is caught and replaced by the apology message carrying the
raw error text. -/
def generate_agent_response (genCall : GenCall) (agent : PodcastAgent)
    (context : String) (conversation_history : List PodcastMessage) : String :=
  let history_text := joinWith "\n"
    ((takeLast 5 conversation_history).map
      (fun msg => msg.agent_id ++ ": " ++ msg.content))
  let prompt := mkPrompt agent context history_text
  match genCall prompt with
  | .ok text => pyStrip text
  | .error e => apologyText ++ e

/-- Model of the Python exceptions escaping `GeminiService`:
`valueError` is the `ValueError` raised by `_generate_conversation_flow`
(the condition the spec names `MissingRequiredAgent`), `wrapped` the
`Exception(f"Failed to generate podcast conversation: {e}")` re-raised
by `generate_podcast_conversation`. -/
inductive SynthError where
  | valueError (msg : String)
  | wrapped (msg : String)
deriving DecidableEq, Repr

/-- Model of Python `str(e)` on a `SynthError`. -/
def synthErrorMsg : SynthError → String
  | .valueError m => m
  | .wrapped m => m

/-- The `for i in range(5)` loop of `_generate_conversation_flow`
(`gemini_service.py` lines 143-168): each round appends an explainer
message and then a curious follow-up to both `messages` and
`conversation_history` (the source keeps the two lists in lockstep). -/
def flowLoop (genCall : GenCall) (explainer curious : PodcastAgent)
    (context : String) :
    Nat → List PodcastMessage → List PodcastMessage →
      List PodcastMessage × List PodcastMessage
  | 0, messages, history => (messages, history)
  | n + 1, messages, history =>
    let explainer_response := generate_agent_response genCall explainer context history
    let explainer_message : PodcastMessage :=
      { agent_id := explainer.id, content := explainer_response,
        is_user_message := false }
    let messages2 := messages ++ [explainer_message]
    let history2 := history ++ [explainer_message]
    let followup_question := generate_agent_response genCall curious context history2
    let followup_message : PodcastMessage :=
      { agent_id := curious.id, content := followup_question,
        is_user_message := false }
    flowLoop genCall explainer curious context n
      (messages2 ++ [followup_message]) (history2 ++ [followup_message])

/-- Embedding of `GeminiService._generate_conversation_flow`
(`gemini_service.py` lines 118-170): locate the explainer and curious
agents (`next(..., None)` = `List.find?`), raise `ValueError` if either
is missing, emit the initial curious question, then run 5 rounds. -/
def generate_conversation_flow (genCall : GenCall)
    (agents : List PodcastAgent) (context : String) (query : Option String) :
    Except SynthError (List PodcastMessage) :=
  match agents.find? (fun a => a.role == "explainer"),
        agents.find? (fun a => a.role == "curious") with
  | some explainer, some curious =>
    let initial_message : PodcastMessage :=
      { agent_id := curious.id,
        content := "What can you tell me about " ++
          pyOr query "this PDF content" ++ "?",
        is_user_message := false }
    .ok (flowLoop genCall explainer curious context 5
      [initial_message] [initial_message]).1
  | _, _ => .error (.valueError "Explainer and curious agents must be present")

/-- Embedding of `GeminiService._get_conversation_context`
(`gemini_service.py` lines 88-116): with a truthy query, embed it and
search the default collection (limit 5), joining the retrieved contents
with blank lines; with a falsy query return the pdf-id placeholder; an
exception from the embedding step is caught and replaced by the generic
fallback string. -/
def get_conversation_context (embed : EmbedCall) (st : QdrantState)
    (pdf_id : String) (query : Option String) : String :=
  if optTruthy query then
    match embed (query.getD "") with
    | .ok query_embedding =>
      joinWith "\n\n"
        ((search_similar st QDRANT_COLLECTION query_embedding 5).map
          (fun result => result.payload.content))
    | .error _ => "General context about the PDF content."
  else
    "Context from PDF " ++ pdf_id ++ " about various topics."

/-- One entry of `request.agent_configs`
(`gemini_service.py` lines 54-61): `name`, `role` and `personality` are
read with mandatory indexing, `voice_id` with `.get(..., "default")`. -/
structure AgentConfig where
  name : String
  role : String
  personality : String
  voice_id : Option String
deriving DecidableEq, Repr

/-- Embedding of the `GeminiGenerationRequest` pydantic model
(`models/gemini_client.py`). -/
structure GeminiGenerationRequest where
  pdf_id : String
  query : Option String
  context : Option String
  agent_configs : List AgentConfig
deriving DecidableEq, Repr

/-- Embedding of the `PodcastConversation` pydantic model
(`models/gemini_client.py`); `created_at`/`updated_at` omitted. -/
structure PodcastConversation where
  id : String
  pdf_id : String
  title : String
  agents : List PodcastAgent
  messages : List PodcastMessage
  status : String
deriving DecidableEq, Repr

/-- The `PodcastAgent` built from one config
(`gemini_service.py` lines 55-61): fresh uuid4 id, fields copied,
`voice_id` defaulted via `.get("voice_id", "default")`. -/
def mkAgent (ids : Nat → String) (n : Nat) (cfg : AgentConfig) : PodcastAgent :=
  { id := ids n, name := cfg.name, role := cfg.role,
    personality := cfg.personality,
    voice_id := cfg.voice_id.getD "default" }

/-- The agent-construction loop of `generate_podcast_conversation`
(`gemini_service.py` lines 53-62): one `PodcastAgent` per config with a
fresh uuid4 id. -/
def buildAgents (ids : Nat → String) : Nat → List AgentConfig → List PodcastAgent
  | _, [] => []
  | n, cfg :: rest => mkAgent ids n cfg :: buildAgents ids (n + 1) rest

/-- Embedding of `GeminiService.generate_podcast_conversation`
(`gemini_service.py` lines 49-86): build the agents, fetch the retrieval
context, run the conversation flow, and return a conversation with
`status="completed"`; any exception is re-raised wrapped in
`Exception(f"Failed to generate podcast conversation: {e}")`. -/
def generate_podcast_conversation (genCall : GenCall) (embed : EmbedCall)
    (ids : Nat → String) (st : QdrantState)
    (request : GeminiGenerationRequest) :
    Except SynthError PodcastConversation :=
  let agents := buildAgents ids 0 request.agent_configs
  let context := get_conversation_context embed st request.pdf_id request.query
  match generate_conversation_flow genCall agents context request.query with
  | .ok messages =>
    .ok { id := ids request.agent_configs.length,
          pdf_id := request.pdf_id,
          title := "Podcast about " ++ pyOr request.query "PDF content",
          agents := agents,
          messages := messages,
          status := "completed" }
  | .error e =>
    .error (.wrapped ("Failed to generate podcast conversation: " ++
      synthErrorMsg e))

/-- The initial curious question emitted by
`_generate_conversation_flow` (`gemini_service.py` lines 132-138). -/
def initMsg (curious : PodcastAgent) (query : Option String) : PodcastMessage :=
  { agent_id := curious.id,
    content := "What can you tell me about " ++
      pyOr query "this PDF content" ++ "?",
    is_user_message := false }

/-- With both required agents found, the flow is the initial message
followed by the five-round loop. -/
lemma flow_eq_ok (g : GenCall) (agents : List PodcastAgent) (ctx : String)
    (q : Option String) (e c : PodcastAgent)
    (he : agents.find? (fun a => a.role == "explainer") = some e)
    (hc : agents.find? (fun a => a.role == "curious") = some c) :
    generate_conversation_flow g agents ctx q =
      .ok (flowLoop g e c ctx 5 [initMsg c q] [initMsg c q]).1 := by
  unfold generate_conversation_flow
  rw [he, hc]
  rfl

/-- The agent-id sequence of the loop: each round contributes the
explainer id followed by the curious id. -/
lemma flowLoop_map_agent_id (g : GenCall) (e c : PodcastAgent) (ctx : String) :
    ∀ (n : Nat) (messages history : List PodcastMessage),
      ((flowLoop g e c ctx n messages history).1).map (fun m => m.agent_id) =
        messages.map (fun m => m.agent_id) ++
          (List.replicate n [e.id, c.id]).flatten := by
  intro n
  induction n with
  | zero => intro messages history; simp [flowLoop]
  | succ n ih =>
    intro messages history
    simp only [flowLoop]
    rw [ih]
    simp [List.replicate_succ, List.append_assoc]

/-- Index-free helper relating `get` over a mapped list to the map. -/
lemma map_get_eq {α β : Type} (f : α → β) (l : List α) (i : Nat)
    (h : i < l.length) (h2 : i < (l.map f).length) :
    (l.map f).get ⟨i, h2⟩ = f (l.get ⟨i, h⟩) := by
  simp

/-- C3: with one explainer and one curious agent present, the flow
yields exactly 1 + 2*5 = 11 messages whose originating agents strictly
alternate, starting with the curious agent. -/
theorem dialogue_eleven_messages_alternating (g : GenCall)
    (agents : List PodcastAgent) (ctx : String) (q : Option String)
    (e c : PodcastAgent)
    (he : agents.find? (fun a => a.role == "explainer") = some e)
    (hc : agents.find? (fun a => a.role == "curious") = some c) :
    ∃ msgs, generate_conversation_flow g agents ctx q = .ok msgs ∧
      msgs.length = 11 ∧
      ∀ i, (h : i < msgs.length) →
        (msgs.get ⟨i, h⟩).agent_id = if i % 2 = 0 then c.id else e.id := by
  have hflow := flow_eq_ok g agents ctx q e c he hc
  set msgs := (flowLoop g e c ctx 5 [initMsg c q] [initMsg c q]).1 with hmsgs
  have hmap : msgs.map (fun m => m.agent_id) =
      [c.id, e.id, c.id, e.id, c.id, e.id, c.id, e.id, c.id, e.id, c.id] := by
    rw [hmsgs, flowLoop_map_agent_id]
    rfl
  have hlen : msgs.length = 11 := by
    have h2 := congrArg List.length hmap
    simpa using h2
  refine ⟨msgs, hflow, hlen, ?_⟩
  intro i h
  have hb : i < (msgs.map (fun m => m.agent_id)).length := by simpa using h
  rw [← map_get_eq (fun m => m.agent_id) msgs i h hb]
  have h11 : i < 11 := by rw [← hlen]; exact h
  revert hb
  rw [hmap]
  intro hb
  interval_cases i <;> rfl

/-- Concrete explainer agent for closed evaluations. -/
def explainerW : PodcastAgent :=
  { id := "agent-e", name := "Alice", role := "explainer",
    personality := "calm", voice_id := "v1" }

/-- Concrete curious agent for closed evaluations. -/
def curiousW : PodcastAgent :=
  { id := "agent-c", name := "Bob", role := "curious",
    personality := "eager", voice_id := "v2" }

/-- Concrete always-succeeding generation capability. -/
def genOk : GenCall := fun _ => .ok "hi"

/-- C3 witness: a concrete two-agent run. -/
theorem dialogue_eleven_messages_alternating_witness :
    ∃ msgs, generate_conversation_flow genOk [explainerW, curiousW] "ctx" none =
        .ok msgs ∧
      msgs.length = 11 ∧
      ∀ i, (h : i < msgs.length) →
        (msgs.get ⟨i, h⟩).agent_id =
          if i % 2 = 0 then curiousW.id else explainerW.id :=
  dialogue_eleven_messages_alternating genOk [explainerW, curiousW] "ctx" none
    explainerW curiousW (by decide) (by decide)

/-- C4: with the curious (or explainer) role absent, the flow raises the
missing-agent `ValueError` — the spec's `MissingRequiredAgent` — with no
message produced (the error carries no transcript) and independently of
the generation capability (no generation call is made); the top-level
`generate_podcast_conversation` re-raises it wrapped, so no partial
conversation object is returned either. -/
theorem missing_required_agent (agents : List PodcastAgent)
    (h : agents.find? (fun a => a.role == "explainer") = none ∨
      agents.find? (fun a => a.role == "curious") = none) :
    (∀ (g : GenCall) (ctx : String) (q : Option String),
      generate_conversation_flow g agents ctx q =
        .error (.valueError "Explainer and curious agents must be present")) ∧
    (∀ (g : GenCall) (embed : EmbedCall) (ids : Nat → String)
        (st : QdrantState) (request : GeminiGenerationRequest),
      buildAgents ids 0 request.agent_configs = agents →
      generate_podcast_conversation g embed ids st request =
        .error (.wrapped
          "Failed to generate podcast conversation: Explainer and curious agents must be present")) := by
  have hflow : ∀ (g : GenCall) (ctx : String) (q : Option String),
      generate_conversation_flow g agents ctx q =
        .error (.valueError "Explainer and curious agents must be present") := by
    intro g ctx q
    rcases h with h | h
    · rcases hx : agents.find? (fun a => a.role == "curious") with _ | c <;>
        simp [generate_conversation_flow, h, hx]
    · rcases hx : agents.find? (fun a => a.role == "explainer") with _ | e <;>
        simp [generate_conversation_flow, h, hx]
  refine ⟨hflow, ?_⟩
  intro g embed ids st request hba
  simp only [generate_podcast_conversation, hba, hflow]
  rfl

/-- Concrete explainer-only agent config. -/
def cfgExplainer : AgentConfig :=
  { name := "Alice", role := "explainer", personality := "calm",
    voice_id := none }

/-- Concrete curious agent config. -/
def cfgCurious : AgentConfig :=
  { name := "Bob", role := "curious", personality := "eager",
    voice_id := some "v2" }

/-- Concrete request lacking a curious agent. -/
def reqNoCurious : GeminiGenerationRequest :=
  { pdf_id := "doc1", query := none, context := none,
    agent_configs := [cfgExplainer] }

/-- Concrete always-succeeding embedding capability. -/
def embedOk : EmbedCall := fun _ => .ok [1, 2]

/-- C4 witness: an agent set with only an explainer. -/
theorem missing_required_agent_witness :
    generate_conversation_flow genOk [explainerW] "ctx" none =
      .error (.valueError "Explainer and curious agents must be present") ∧
    generate_podcast_conversation genOk embedOk uuidSupply [] reqNoCurious =
      .error (.wrapped
        "Failed to generate podcast conversation: Explainer and curious agents must be present") :=
  ⟨(missing_required_agent [explainerW] (Or.inr (by decide))).1 genOk "ctx" none,
   (missing_required_agent (buildAgents uuidSupply 0 reqNoCurious.agent_configs)
      (Or.inr (by decide))).2 genOk embedOk uuidSupply [] reqNoCurious rfl⟩

/-- A failing generation call is replaced by the apology message carrying
the raw error text. -/
lemma gar_fail (g : GenCall) (err : String) (hfail : ∀ p, g p = .error err)
    (agent : PodcastAgent) (ctx : String) (hist : List PodcastMessage) :
    generate_agent_response g agent ctx hist = apologyText ++ err := by
  simp [generate_agent_response, hfail]

/-- Under an always-failing generator the loop still appends 2 messages
per round, all apologies. -/
lemma flowLoop_apology (g : GenCall) (e c : PodcastAgent) (ctx : String)
    (err : String) (hfail : ∀ p, g p = .error err) :
    ∀ (n : Nat) (messages history : List PodcastMessage),
      ∃ extra, (flowLoop g e c ctx n messages history).1 = messages ++ extra ∧
        extra.length = 2 * n ∧
        ∀ m ∈ extra, m.content = apologyText ++ err := by
  intro n
  induction n with
  | zero =>
    intro messages history
    exact ⟨[], by simp [flowLoop], rfl, by simp⟩
  | succ n ih =>
    intro messages history
    simp only [flowLoop]
    set M1 : PodcastMessage :=
      { agent_id := e.id, content := generate_agent_response g e ctx history,
        is_user_message := false } with hM1
    set M2 : PodcastMessage :=
      { agent_id := c.id,
        content := generate_agent_response g c ctx (history ++ [M1]),
        is_user_message := false } with hM2
    obtain ⟨extra, heq, hlen, hap⟩ :=
      ih ((messages ++ [M1]) ++ [M2]) ((history ++ [M1]) ++ [M2])
    refine ⟨M1 :: M2 :: extra, ?_, ?_, ?_⟩
    · rw [heq]
      simp
    · simp only [List.length_cons, hlen]
      omega
    · intro m hm
      rcases List.mem_cons.mp hm with hm | hm
      · subst hm
        rw [hM1]
        exact gar_fail g err hfail e ctx history
      · rcases List.mem_cons.mp hm with hm | hm
        · subst hm
          rw [hM2]
          exact gar_fail g err hfail c ctx (history ++ [M1])
        · exact hap m hm

/-- C5: when every per-turn generation call fails, the flow still
produces the full transcript — the initial question plus 10 turn
messages — and each turn message is the apology carrying the raw error
text; the conversation is not aborted. -/
theorem failed_turns_substitute_apology (g : GenCall)
    (agents : List PodcastAgent) (ctx : String) (q : Option String)
    (e c : PodcastAgent) (err : String)
    (he : agents.find? (fun a => a.role == "explainer") = some e)
    (hc : agents.find? (fun a => a.role == "curious") = some c)
    (hfail : ∀ p, g p = .error err) :
    ∃ rest, generate_conversation_flow g agents ctx q =
        .ok (initMsg c q :: rest) ∧
      rest.length = 10 ∧
      ∀ m ∈ rest, m.content = apologyText ++ err := by
  obtain ⟨extra, heq, hlen, hap⟩ :=
    flowLoop_apology g e c ctx err hfail 5 [initMsg c q] [initMsg c q]
  refine ⟨extra, ?_, by simpa using hlen, hap⟩
  rw [flow_eq_ok g agents ctx q e c he hc, heq]
  rfl

/-- Concrete always-failing generation capability. -/
def genFail : GenCall := fun _ => .error "quota exceeded"

/-- C5 witness: a concrete run where every generation call fails. -/
theorem failed_turns_substitute_apology_witness :
    ∃ rest, generate_conversation_flow genFail [explainerW, curiousW] "ctx" none =
        .ok (initMsg curiousW none :: rest) ∧
      rest.length = 10 ∧
      ∀ m ∈ rest, m.content = apologyText ++ "quota exceeded" :=
  failed_turns_substitute_apology genFail [explainerW, curiousW] "ctx" none
    explainerW curiousW "quota exceeded" (by decide) (by decide) (fun _ => rfl)

/-- Whether `sub` occurs at the start of `l`. -/
def isSubAt : List Char → List Char → Bool
  | [], _ => true
  | _ :: _, [] => false
  | a :: as, b :: bs => a == b && isSubAt as bs

/-- Whether `sub` occurs anywhere in `l`. -/
def hasSub (sub : List Char) : List Char → Bool
  | [] => sub.isEmpty
  | b :: bs => isSubAt sub (b :: bs) || hasSub sub bs

/-- Whether the string `sub` occurs as a substring of `s`. -/
def strContainsStr (s sub : String) : Bool := hasSub sub.data s.data

lemma isSubAt_self_append : ∀ (as bs : List Char), isSubAt as (as ++ bs) = true := by
  intro as
  induction as with
  | nil => intro bs; rfl
  | cons a as ih => intro bs; simp [isSubAt, ih]

lemma hasSub_append (sub : List Char) :
    ∀ (pre post : List Char), hasSub sub (pre ++ sub ++ post) = true := by
  intro pre
  induction pre with
  | nil =>
    intro post
    rcases hs : sub with _ | ⟨ch, cs⟩
    · cases post <;> simp [hasSub, isSubAt]
    · show hasSub (ch :: cs) ((ch :: cs) ++ post) = true
      have h1 := isSubAt_self_append (ch :: cs) post
      simp only [List.cons_append] at h1
      simp [hasSub, h1]
  | cons p ps ih =>
    intro post
    have h1 := ih post
    rw [List.append_assoc] at h1
    simp [hasSub, h1]

lemma strContains_infix (pre mid post : String) :
    strContainsStr (pre ++ mid ++ post) mid = true := by
  unfold strContainsStr
  rw [String.data_append, String.data_append]
  exact hasSub_append mid.data pre.data post.data

/-- Concrete failing embedding capability. -/
def embedFail : EmbedCall := fun _ => .error "model load failed"

/-- C8 counterexample: when the embedding step fails with a query
present, the fallback string is the fixed
`"General context about the PDF content."`, which does not contain the
document reference identifier (`pdf_id = "doc-42"` here). -/
theorem context_fallback_counterexample :
    get_conversation_context embedFail [] "doc-42" (some "quantum") =
      "General context about the PDF content." ∧
      strContainsStr "General context about the PDF content." "doc-42" = false := by
  exact ⟨by decide, by decide⟩

/-- C8 (amended): with no query (`None` or the falsy `""`) the builder
returns the placeholder naming the document reference, which contains
`pdf_id` as a substring; when the embedding step fails with a truthy
query, it returns the fixed generic fallback (which does not mention the
reference); in every case a plain string is returned — the builder is a
total function, so retrieval failure never aborts conversation
generation. -/
theorem context_fallback (embed : EmbedCall) (st : QdrantState)
    (pdf_id : String) (q : String) :
    (get_conversation_context embed st pdf_id none =
        "Context from PDF " ++ pdf_id ++ " about various topics." ∧
      strContainsStr (get_conversation_context embed st pdf_id none) pdf_id =
        true) ∧
    (get_conversation_context embed st pdf_id (some "") =
      "Context from PDF " ++ pdf_id ++ " about various topics.") ∧
    (∀ errText, q ≠ "" → embed q = .error errText →
      get_conversation_context embed st pdf_id (some q) =
        "General context about the PDF content.") := by
  have hnone : get_conversation_context embed st pdf_id none =
      "Context from PDF " ++ pdf_id ++ " about various topics." := by
    simp [get_conversation_context, optTruthy]
  refine ⟨⟨hnone, ?_⟩, ?_, ?_⟩
  · rw [hnone]
    exact strContains_infix "Context from PDF " pdf_id " about various topics."
  · simp [get_conversation_context, optTruthy]
  · intro errText hq herr
    have ht : optTruthy (some q) = true := by
      simp [optTruthy, hq]
    simp [get_conversation_context, ht, herr]

/-- C8 amended-claim witness: concrete no-query and failing-embed runs. -/
theorem context_fallback_witness :
    get_conversation_context embedFail [] "doc-42" none =
      "Context from PDF " ++ "doc-42" ++ " about various topics." ∧
    get_conversation_context embedFail [] "doc-42" (some "quantum") =
      "General context about the PDF content." := by
  obtain ⟨⟨h1, _⟩, _, h3⟩ := context_fallback embedFail [] "doc-42" "quantum"
  exact ⟨h1, h3 "model load failed" (by decide) rfl⟩

/-- A config with the wanted role yields a found agent among the built
agents (`buildAgents` preserves each config's role). -/
lemma buildAgents_find?_some (ids : Nat → String) (r : String) :
    ∀ (cfgs : List AgentConfig) (n : Nat) (cfg : AgentConfig),
      cfgs.find? (fun cfg => cfg.role == r) = some cfg →
      ∃ a, (buildAgents ids n cfgs).find? (fun a => a.role == r) = some a := by
  intro cfgs
  induction cfgs with
  | nil =>
    intro n cfg h
    simp at h
  | cons c0 rest ih =>
    intro n cfg h
    by_cases hb : (c0.role == r) = true
    · refine ⟨mkAgent ids n c0, ?_⟩
      simp only [buildAgents]
      rw [List.find?_cons_of_pos]
      exact hb
    · have h2 : rest.find? (fun cfg => cfg.role == r) = some cfg := by
        rwa [List.find?_cons_of_neg rest hb] at h
      obtain ⟨a, ha⟩ := ih (n + 1) cfg h2
      refine ⟨a, ?_⟩
      simp only [buildAgents]
      rw [List.find?_cons_of_neg (buildAgents ids (n + 1) rest) hb]
      exact ha

/-- C10: every conversation object `generate_podcast_conversation`
returns has status `"completed"` — a `"failed"` status is never returned
— and with valid agent configs this holds even when every per-turn
generation call fails (the result is still `Except.ok` with status
`"completed"`). -/
theorem conversation_status_always_completed :
    (∀ (g : GenCall) (embed : EmbedCall) (ids : Nat → String)
        (st : QdrantState) (request : GeminiGenerationRequest)
        (conv : PodcastConversation),
      generate_podcast_conversation g embed ids st request = .ok conv →
      conv.status = "completed") ∧
    (∀ (err : String) (embed : EmbedCall) (ids : Nat → String)
        (st : QdrantState) (request : GeminiGenerationRequest)
        (ce cc : AgentConfig),
      request.agent_configs.find? (fun cfg => cfg.role == "explainer") = some ce →
      request.agent_configs.find? (fun cfg => cfg.role == "curious") = some cc →
      ∃ conv,
        generate_podcast_conversation (fun _ => .error err) embed ids st request =
          .ok conv ∧ conv.status = "completed") := by
  constructor
  · intro g embed ids st request conv hok
    rcases hflow : generate_conversation_flow g
        (buildAgents ids 0 request.agent_configs)
        (get_conversation_context embed st request.pdf_id request.query)
        request.query with err | msgs
    · simp [generate_podcast_conversation, hflow] at hok
    · simp only [generate_podcast_conversation, hflow, Except.ok.injEq] at hok
      rw [← hok]
  · intro err embed ids st request ce cc hce hcc
    obtain ⟨e, he⟩ :=
      buildAgents_find?_some ids "explainer" request.agent_configs 0 ce hce
    obtain ⟨c, hc⟩ :=
      buildAgents_find?_some ids "curious" request.agent_configs 0 cc hcc
    have hflow := flow_eq_ok (fun _ => .error err)
      (buildAgents ids 0 request.agent_configs)
      (get_conversation_context embed st request.pdf_id request.query)
      request.query e c he hc
    refine ⟨{ id := ids request.agent_configs.length,
              pdf_id := request.pdf_id,
              title := "Podcast about " ++ pyOr request.query "PDF content",
              agents := buildAgents ids 0 request.agent_configs,
              messages := (flowLoop (fun _ => .error err) e c
                (get_conversation_context embed st request.pdf_id request.query)
                5 [initMsg c request.query] [initMsg c request.query]).1,
              status := "completed" }, ?_, rfl⟩
    simp only [generate_podcast_conversation, hflow]

/-- Concrete request with both required roles. -/
def reqBoth : GeminiGenerationRequest :=
  { pdf_id := "doc1", query := some "ml", context := none,
    agent_configs := [cfgExplainer, cfgCurious] }

/-- C10 witness: even with every generation call failing, the returned
conversation exists and its status is `"completed"`. -/
theorem conversation_status_always_completed_witness :
    ∃ conv,
      generate_podcast_conversation (fun _ => .error "boom") embedOk uuidSupply
        [] reqBoth = .ok conv ∧ conv.status = "completed" := by
  obtain ⟨conv, hok, hst⟩ := conversation_status_always_completed.2 "boom"
    embedOk uuidSupply [] reqBoth cfgExplainer cfgCurious (by decide) (by decide)
  exact ⟨conv, hok,
    conversation_status_always_completed.1 (fun _ => .error "boom") embedOk
      uuidSupply [] reqBoth conv hok⟩

end RagPodcast
